import Mathlib

/-!
Verification of the entrypoint-framework supervisor core.

This file gives a shallow embedding of the Go sources of the
k-lb/entrypoint-framework repository and proves the frozen claims about it.

The embedding covers:
* the supervisor state triple and its event/decision tables
  (test/entrypoint/state.go and test/entrypoint/entrypoint.go);
* the configuration handler base with its update-request policy
  (handlers/configuration_handler.go);
* the tarred update function and the file diff
  (handlers/configuration_handler_update_functions.go,
  handlers/internal/filesystem/diff.go);
* the event notifier latch (handlers/internal/global/notifier.go).

Goroutine channels are modelled by explicit queue lengths or contents, and
operations that can panic in Go (closing a closed channel, sending on a
closed channel) return `Option`, where `none` marks the panic.
-/

/-- Go `error` values, abstracted as strings (only nil-ness and identity
of errors matter to the supervisor). -/
abbrev Err := String

/-- Modification specifies the type of modification made to a file while
updating (handlers/configuration_handler_update_functions.go). -/
inductive Modification
  | Deleted
  | Modified
  | Created
deriving DecidableEq, Repr

/-- The error of an UpdateResult, tagged with the filesystem operation of
updateTarredConfig that produced it (the Go code wraps the underlying
error in a distinct message per operation). -/
inductive TarErr
  | clearDir (e : Err)
  | extract (e : Err)
  | listDir (e : Err)
  | move (e : Err)
  | diff (e : Err)
  | del (e : Err)
deriving DecidableEq, Repr

/-- UpdateResult contains a map of file names with the modification that
was made to them and an error if it was observed (handlers package).
The Go map is modelled as an association list. -/
structure UpdateResult where
  changedFiles : List (String × Modification)
  err : Option TarErr
deriving DecidableEq, Repr

/-! ## Supervisor state (test/entrypoint/state.go) -/

/-- ActivationState represents the activation state of the system. -/
inductive ActivationState
  | inactive
  | active
deriving DecidableEq, Repr

/-- ConfigurationState represents the configuration state of the system. -/
inductive ConfigurationState
  | notReady
  | changed
  | updated
  | applied
deriving DecidableEq, Repr

/-- ProcessState represents the process state of the system. -/
inductive ProcessState
  | dead
  | changing
  | alive
deriving DecidableEq, Repr

/-- State represents a current state of the system. -/
structure State where
  activation : ActivationState
  configuration : ConfigurationState
  process : ProcessState
deriving DecidableEq, Repr

/-- InState is a helper struct for checking a State (state.go). -/
structure InState where
  s : State
  isState : Bool

/-- is creates a new InState with isState true. -/
def isSt (s : State) : InState := ⟨s, true⟩

/-- setFalseWhenMissing sets isState to false if val is not in list
(state.go, slices.Contains). -/
def setFalseWhenMissing {α : Type} [DecidableEq α] (i : InState) (val : α)
    (list : List α) : InState :=
  if val ∈ list then i else { i with isState := false }

/-- act sets isState to false if State.activation is missing in activations. -/
def InState.act (i : InState) (activations : List ActivationState) : InState :=
  setFalseWhenMissing i i.s.activation activations

/-- config sets isState to false if State.configuration is missing in
configurations. -/
def InState.config (i : InState) (configurations : List ConfigurationState) : InState :=
  setFalseWhenMissing i i.s.configuration configurations

/-- proc sets isState to false if State.process is missing in processes. -/
def InState.proc (i : InState) (processes : List ProcessState) : InState :=
  setFalseWhenMissing i i.s.process processes

/-- value returns the isState bool value. -/
def InState.value (i : InState) : Bool := i.isState

/-! ## Entrypoint (test/entrypoint/entrypoint.go) -/

/-- The state of an Entrypoint relevant to the supervisor loop: the state
triple plus the two auxiliaries.  The handler references and the logger
carry no state-machine content. -/
structure Entrypoint where
  state : State
  wasConfigChanged : Bool
  configUpdatesRunning : Int
deriving DecidableEq, Repr

/-- The events the supervisor loop selects over in changeStateByEvent. -/
inductive Event
  | activationEv (st : Bool) (er : Option Err)
  | configChangedEv (er : Option Err)
  | updateResultEv (u : UpdateResult)
  | processStartedEv (er : Option Err)
  | processEndedEv (er : Option Err)
deriving DecidableEq, Repr

/-- runFunctionIfNoError logs and runs f with the ev argument only if err
is nil (entrypoint.go). -/
def runFunctionIfNoError {T E : Type} (e : Entrypoint) (ev : T)
    (f : Entrypoint → T → Entrypoint) (er : Option E) : Entrypoint :=
  match er with
  | none => f e ev
  | some _ => e

/-- activationWasChanged reacts to the ActivationHandler wasChanged event:
state.activation becomes ActivationState(ev.State), where the Go
ActivationState is a bool with active = true. -/
def activationWasChanged (e : Entrypoint) (st : Bool) : Entrypoint :=
  { e with state := { e.state with
      activation := if st then .active else .inactive } }

/-- configurationWasChanged reacts to the ConfigurationHandler wasChanged
event: state.configuration becomes changed. -/
def configurationWasChanged (e : Entrypoint) : Entrypoint :=
  { e with state := { e.state with configuration := .changed } }

/-- configurationWasUpdated reacts to an event with configuration update
results (entrypoint.go): decrement configUpdatesRunning, mark
wasConfigChanged if any files changed, and when no updates remain running
set configuration to updated or applied. -/
def configurationWasUpdated (e : Entrypoint) (u : UpdateResult) : Entrypoint :=
  let e1 := { e with configUpdatesRunning := e.configUpdatesRunning - 1 }
  let e2 := if u.changedFiles.length > 0
    then { e1 with wasConfigChanged := true } else e1
  if e2.configUpdatesRunning = 0 then
    if e2.wasConfigChanged then
      { e2 with state := { e2.state with configuration := .updated } }
    else
      { e2 with state := { e2.state with configuration := .applied } }
  else e2

/-- processWasStarted reacts to the event of starting the process. -/
def processWasStarted (e : Entrypoint) : Entrypoint :=
  let e1 := { e with state := { e.state with process := .alive } }
  if e1.state.configuration = .updated then
    { e1 with state := { e1.state with configuration := .applied },
              wasConfigChanged := false }
  else e1

/-- processWasEnded reacts to the event of stopping the process (the error
is only logged). -/
def processWasEnded (e : Entrypoint) : Entrypoint :=
  { e with state := { e.state with process := .dead } }

/-- changeStateByEvent reacts to handler events by changing the state of
the entrypoint (entrypoint.go).  Each select branch feeds the event error
through runFunctionIfNoError, except the process-ended branch which always
runs. -/
def changeStateByEvent (e : Entrypoint) : Event → Entrypoint
  | .activationEv st er => runFunctionIfNoError e st activationWasChanged er
  | .configChangedEv er =>
      runFunctionIfNoError e er (fun e _ => configurationWasChanged e) er
  | .updateResultEv u =>
      runFunctionIfNoError e u configurationWasUpdated u.err
  | .processStartedEv er =>
      runFunctionIfNoError e er (fun e _ => processWasStarted e) er
  | .processEndedEv _ => processWasEnded e

/-- The handler calls handleStatusChange performs, recorded for the
decision-table theorems: starting the process, killing it, and requesting
a configuration update. -/
inductive SupAction
  | start
  | kill
  | requestUpdate
deriving DecidableEq, BEq, Repr

/-- start creates a new process handler and starts the process
(entrypoint.go).  startOk tells whether NewProcessHandler succeeded; on
failure the error is logged and the state is left unchanged, on success
the process state becomes changing. -/
def Entrypoint.start (startOk : Bool) (e : Entrypoint) : Entrypoint :=
  if startOk then { e with state := { e.state with process := .changing } }
  else e

/-- kill kills the entrypoint process (entrypoint.go).  killOk tells
whether process.Kill() succeeded; on failure the error is logged and the
state is left unchanged, on success the process state becomes changing. -/
def Entrypoint.kill (killOk : Bool) (e : Entrypoint) : Entrypoint :=
  if killOk then { e with state := { e.state with process := .changing } }
  else e

/-- handleStatusChange handles a status change (entrypoint.go), written
with the InState matcher chain exactly as in the source.  The returned
list records which handler calls were made, in order. -/
def handleStatusChange (startOk killOk : Bool) (e : Entrypoint) :
    Entrypoint × List SupAction :=
  if (((isSt e.state).act [.active]).config [.applied, .updated]).proc [.dead]
      |>.value then
    (e.start startOk, [.start])
  else if (((isSt e.state).act [.active]).config [.updated]).proc [.alive]
      |>.value then
    let e1 := e.kill killOk
    if e1.state.process = .changing then -- kill was successful
      (e1.start startOk, [.kill, .start])
    else
      (e1, [.kill])
  else if ((isSt e.state).act [.inactive]).proc [.alive] |>.value then
    (e.kill killOk, [.kill])
  else if ((isSt e.state).config [.changed]).proc [.dead, .alive] |>.value then
    ({ e with configUpdatesRunning := e.configUpdatesRunning + 1,
              state := { e.state with configuration := .notReady } },
     [.requestUpdate])
  else
    (e, [])

/-- The decision table transcribed from the specification text: evaluated
in order, first match wins; rule 2 runs start immediately only if the kill
succeeded; any other triple leaves the state unchanged and performs no
action. -/
def decisionTableSpec (startOk killOk : Bool) (e : Entrypoint) :
    Entrypoint × List SupAction :=
  if e.state.activation = .active
      ∧ (e.state.configuration = .applied ∨ e.state.configuration = .updated)
      ∧ e.state.process = .dead then
    (e.start startOk, [.start])
  else if e.state.activation = .active ∧ e.state.configuration = .updated
      ∧ e.state.process = .alive then
    if killOk then
      (Entrypoint.start startOk
        { e with state := { e.state with process := .changing } },
       [.kill, .start])
    else
      (e, [.kill])
  else if e.state.activation = .inactive ∧ e.state.process = .alive then
    (e.kill killOk, [.kill])
  else if e.state.configuration = .changed
      ∧ (e.state.process = .dead ∨ e.state.process = .alive) then
    ({ e with configUpdatesRunning := e.configUpdatesRunning + 1,
              state := { e.state with configuration := .notReady } },
     [.requestUpdate])
  else
    (e, [])

/-! ## Theorems about the supervisor decision and event tables -/

/-- C1.  For every state triple, handleStatusChange evaluates the decision
rules in the specified order with first match winning: (1) active,
configuration in applied or updated, process dead: start; (2) active,
updated, alive: kill, and start immediately only if the kill succeeded
(process transitioned to changing); (3) inactive with process alive: kill;
(4) configuration changed with process dead or alive: request a
configuration update (Update called, configUpdatesRunning incremented,
configuration set to notReady); any other triple leaves the state
unchanged and performs no action. -/
theorem handleStatusChange_matches_decision_table
    (startOk killOk : Bool) (e : Entrypoint) :
    handleStatusChange startOk killOk e = decisionTableSpec startOk killOk e := by
  obtain ⟨⟨a, c, p⟩, w, n⟩ := e
  cases a <;> cases c <;> cases p <;> cases startOk <;> cases killOk <;> rfl

/-- C2.  Applying an update-result event with nil error decrements
configUpdatesRunning by one; wasConfigChanged becomes true when the
changedFiles map is non-empty and keeps its value otherwise; and when the
decremented configUpdatesRunning is zero the configuration becomes updated
or applied according to the new wasConfigChanged, otherwise the
configuration is untouched.  Activation and process are untouched. -/
theorem updateResult_no_error_effect
    (e : Entrypoint) (cf : List (String × Modification)) :
    (changeStateByEvent e (.updateResultEv ⟨cf, none⟩)).configUpdatesRunning
        = e.configUpdatesRunning - 1
    ∧ (changeStateByEvent e (.updateResultEv ⟨cf, none⟩)).wasConfigChanged
        = (if cf.isEmpty then e.wasConfigChanged else true)
    ∧ (changeStateByEvent e (.updateResultEv ⟨cf, none⟩)).state.configuration
        = (if e.configUpdatesRunning - 1 = 0 then
            (if (if cf.isEmpty then e.wasConfigChanged else true)
              then ConfigurationState.updated else ConfigurationState.applied)
          else e.state.configuration)
    ∧ (changeStateByEvent e (.updateResultEv ⟨cf, none⟩)).state.activation
        = e.state.activation
    ∧ (changeStateByEvent e (.updateResultEv ⟨cf, none⟩)).state.process
        = e.state.process := by
  simp only [changeStateByEvent, runFunctionIfNoError, configurationWasUpdated]
  cases cf with
  | nil =>
    simp only [List.length_nil, List.isEmpty_nil, gt_iff_lt, lt_self_iff_false,
      if_false, if_true]
    split
    · split <;> simp
    · simp
  | cons x xs =>
    simp only [List.length_cons, List.isEmpty_cons, gt_iff_lt,
      Nat.succ_pos, if_true]
    split <;> simp

/-- C6.  An event carrying a non-nil error leaves the whole supervisor
state (triple and auxiliaries) unchanged, except a process-ended event,
which sets process to dead whether or not it carries an error and changes
nothing else. -/
theorem errored_event_changes_nothing
    (e : Entrypoint) (st : Bool) (er : Err) (te : TarErr)
    (cf : List (String × Modification)) :
    changeStateByEvent e (.activationEv st (some er)) = e
    ∧ changeStateByEvent e (.configChangedEv (some er)) = e
    ∧ changeStateByEvent e (.updateResultEv ⟨cf, some te⟩) = e
    ∧ changeStateByEvent e (.processStartedEv (some er)) = e
    ∧ changeStateByEvent e (.processEndedEv (some er))
        = { e with state := { e.state with process := .dead } }
    ∧ changeStateByEvent e (.processEndedEv none)
        = { e with state := { e.state with process := .dead } } := by
  exact ⟨rfl, rfl, rfl, rfl, rfl, rfl⟩

/-- C9.  Applying a successful process-started event sets process to
alive; afterwards the configuration is never updated: when it was updated
it becomes applied with wasConfigChanged reset to false, and otherwise the
configuration and wasConfigChanged are untouched. -/
theorem processStarted_no_updated_while_alive (e : Entrypoint) :
    (changeStateByEvent e (.processStartedEv none)).state.process
        = ProcessState.alive
    ∧ (changeStateByEvent e (.processStartedEv none)).state.configuration
        ≠ ConfigurationState.updated
    ∧ (changeStateByEvent e (.processStartedEv none)).state.configuration
        = (if e.state.configuration = .updated then ConfigurationState.applied
          else e.state.configuration)
    ∧ (changeStateByEvent e (.processStartedEv none)).wasConfigChanged
        = (if e.state.configuration = .updated then false
          else e.wasConfigChanged)
    ∧ (changeStateByEvent e (.processStartedEv none)).state.activation
        = e.state.activation
    ∧ (changeStateByEvent e (.processStartedEv none)).configUpdatesRunning
        = e.configUpdatesRunning := by
  simp only [changeStateByEvent, runFunctionIfNoError, processWasStarted]
  obtain ⟨⟨a, c, p⟩, w, n⟩ := e
  cases c <;> simp

/-! ## The supervisor as a transition system (C3)

One loop iteration of main (entrypoint.go) consumes one event and then
runs handleStatusChange.  pendingResults counts update operations whose
results were requested (rule 4 calling configuration.Update()) but whose
UpdateResult was not yet consumed from the update-result channel;
erroredConsumed counts consumed UpdateResults that carried a non-nil
error. -/

/-- A supervisor system state: the entrypoint plus the bookkeeping of
requested-but-unconsumed update results. -/
structure SysState where
  ep : Entrypoint
  pendingResults : Nat
  erroredConsumed : Nat
deriving Repr

/-- One iteration of the supervisor loop on event ev: changeStateByEvent
followed by handleStatusChange.  Consuming an update result removes it
from the pending count; a fired rule 4 adds one request. -/
def sysApply (startOk killOk : Bool) (s : SysState) (ev : Event) : SysState :=
  let r := handleStatusChange startOk killOk (changeStateByEvent s.ep ev)
  { ep := r.1,
    pendingResults :=
      (match ev with
        | .updateResultEv _ => s.pendingResults - 1
        | _ => s.pendingResults) + r.2.count .requestUpdate,
    erroredConsumed := s.erroredConsumed +
      (match ev with
        | .updateResultEv u => if u.err.isSome then 1 else 0
        | _ => 0) }

/-- The supervisor step relation: any non-result event may arrive at any
time; an update-result event can only be consumed when one is pending. -/
inductive SysStep : SysState → SysState → Prop
  | nonResult (s : SysState) (ev : Event) (startOk killOk : Bool)
      (h : ∀ u, ev ≠ .updateResultEv u) :
      SysStep s (sysApply startOk killOk s ev)
  | result (s : SysState) (u : UpdateResult) (startOk killOk : Bool)
      (h : 0 < s.pendingResults) :
      SysStep s (sysApply startOk killOk s (.updateResultEv u))

/-- The boot state set up by initialize(): triple (inactive, notReady,
dead), wasConfigChanged false, configUpdatesRunning 0, nothing pending. -/
def initSys : SysState := ⟨⟨⟨.inactive, .notReady, .dead⟩, false, 0⟩, 0, 0⟩

/-- A supervisor state is reachable when a finite run of loop iterations
produces it from the boot state. -/
def SysReachable (s : SysState) : Prop :=
  Relation.ReflTransGen SysStep initSys s

/-- handleStatusChange adds one to configUpdatesRunning exactly when it
requested an update (rule 4), and leaves it unchanged otherwise. -/
theorem handleStatusChange_configUpdatesRunning
    (startOk killOk : Bool) (e : Entrypoint) :
    (handleStatusChange startOk killOk e).1.configUpdatesRunning
      = e.configUpdatesRunning
        + ((handleStatusChange startOk killOk e).2.count .requestUpdate : Int) := by
  obtain ⟨⟨a, c, p⟩, w, n⟩ := e
  cases a <;> cases c <;> cases p <;> cases startOk <;> cases killOk <;>
    simp [handleStatusChange, isSt, InState.act, InState.config, InState.proc,
      InState.value, setFalseWhenMissing, Entrypoint.start, Entrypoint.kill,
      List.count] <;> decide

/-- changeStateByEvent subtracts one from configUpdatesRunning on a
successfully consumed update result and leaves it unchanged on every other
event. -/
theorem changeStateByEvent_configUpdatesRunning (e : Entrypoint) (ev : Event) :
    (changeStateByEvent e ev).configUpdatesRunning
      = e.configUpdatesRunning
        - (match ev with
            | .updateResultEv u => if u.err.isSome then 0 else 1
            | _ => 0) := by
  cases ev with
  | updateResultEv u =>
    obtain ⟨cf, er⟩ := u
    cases er with
    | none =>
      simp only [changeStateByEvent, runFunctionIfNoError, configurationWasUpdated]
      split <;> (try split) <;> (try split) <;> simp_all
    | some te => simp [changeStateByEvent, runFunctionIfNoError]
  | activationEv st er => cases er <;>
      simp [changeStateByEvent, runFunctionIfNoError, activationWasChanged]
  | configChangedEv er => cases er <;>
      simp [changeStateByEvent, runFunctionIfNoError, configurationWasChanged]
  | processStartedEv er =>
    cases er with
    | none =>
      simp only [changeStateByEvent, runFunctionIfNoError, processWasStarted]
      split <;> simp
    | some e => simp [changeStateByEvent, runFunctionIfNoError]
  | processEndedEv er =>
      simp [changeStateByEvent, processWasEnded]

/-- One loop iteration preserves the relation between configUpdatesRunning
and the pending / errored bookkeeping. -/
theorem sysStep_preserves_inv (s t : SysState) (hstep : SysStep s t)
    (ih : s.ep.configUpdatesRunning
      = (s.pendingResults : Int) + (s.erroredConsumed : Int)) :
    t.ep.configUpdatesRunning
      = (t.pendingResults : Int) + (t.erroredConsumed : Int) := by
  cases hstep with
  | nonResult ev startOk killOk hne =>
    have h1 := handleStatusChange_configUpdatesRunning startOk killOk
      (changeStateByEvent s.ep ev)
    have h2 := changeStateByEvent_configUpdatesRunning s.ep ev
    simp only [sysApply]
    cases ev with
    | updateResultEv u => exact absurd rfl (hne u)
    | activationEv st er => simp only at h2; push_cast; omega
    | configChangedEv er => simp only at h2; push_cast; omega
    | processStartedEv er => simp only at h2; push_cast; omega
    | processEndedEv er => simp only at h2; push_cast; omega
  | result u startOk killOk hpend =>
    have h1 := handleStatusChange_configUpdatesRunning startOk killOk
      (changeStateByEvent s.ep (.updateResultEv u))
    have h2 := changeStateByEvent_configUpdatesRunning s.ep (.updateResultEv u)
    simp only at h2
    simp only [sysApply]
    cases hu : u.err <;> simp only [hu, Option.isSome_none, Option.isSome_some,
      if_true, if_false, Bool.false_eq_true] at h2 ⊢ <;> push_cast <;> omega

/-- C3 (amended).  In every reachable supervisor state,
configUpdatesRunning is non-negative and equals the number of pending
update-result deliveries plus the number of already consumed UpdateResults
that carried a non-nil error.  It therefore matches the pending count
exactly as long as no errored result has been consumed. -/
theorem reachable_configUpdatesRunning_eq_pending_plus_errored
    (s : SysState) (h : SysReachable s) :
    0 ≤ s.ep.configUpdatesRunning
    ∧ s.ep.configUpdatesRunning
        = (s.pendingResults : Int) + (s.erroredConsumed : Int) := by
  induction h with
  | refl => exact ⟨le_refl 0, rfl⟩
  | tail _ hstep ih =>
    have heq := sysStep_preserves_inv _ _ hstep ih.2
    exact ⟨by omega, heq⟩

/-- Witness for the amended C3 theorem at the boot state. -/
theorem reachable_configUpdatesRunning_witness :
    SysReachable initSys
    ∧ (0 ≤ initSys.ep.configUpdatesRunning
       ∧ initSys.ep.configUpdatesRunning
          = (initSys.pendingResults : Int) + (initSys.erroredConsumed : Int)) :=
  ⟨Relation.ReflTransGen.refl,
   reachable_configUpdatesRunning_eq_pending_plus_errored initSys
     Relation.ReflTransGen.refl⟩

/-- The reachable state refuting C3 as stated: a config-changed event
fires rule 4 (one update requested), then the update result arrives
carrying an error and is consumed. -/
def sysCounterexample : SysState :=
  sysApply true true
    (sysApply true true initSys (.configChangedEv none))
    (.updateResultEv ⟨[], some (.clearDir "boom")⟩)

/-- C3 as stated is false: consuming an UpdateResult whose error is
non-nil skips configurationWasUpdated, so configUpdatesRunning stays 1
while no update-result delivery is pending any more. -/
theorem c3_as_stated_false :
    ¬ (∀ s : SysState, SysReachable s →
        0 ≤ s.ep.configUpdatesRunning
        ∧ s.ep.configUpdatesRunning = (s.pendingResults : Int)) := by
  intro hclaim
  have hstep1 : SysStep initSys (sysApply true true initSys (.configChangedEv none)) :=
    SysStep.nonResult initSys (.configChangedEv none) true true (by intro u; simp)
  have hpend : 0 < (sysApply true true initSys (.configChangedEv none)).pendingResults := by
    decide
  have hstep2 : SysStep (sysApply true true initSys (.configChangedEv none))
      sysCounterexample :=
    SysStep.result _ ⟨[], some (.clearDir "boom")⟩ true true hpend
  have hreach : SysReachable sysCounterexample :=
    Relation.ReflTransGen.tail (Relation.ReflTransGen.single hstep1) hstep2
  have hcontr := (hclaim sysCounterexample hreach).2
  revert hcontr
  decide

/-! ## ConfigurationHandlerBase (handlers/configuration_handler.go)

The handler owns three buffered channels (wasChangedCh, updateStartCh,
updateResultCh) and two atomic flags.  Channels are modelled by the number
of queued items; updatesRun counts invocations of the update function. -/

/-- The reason Update returns an error, one per rejection condition. -/
inductive UpdateErrorKind
  | closed
  | noChange
  | inFlight
  | resultPending
deriving DecidableEq, Repr

/-- The state of a ConfigurationHandlerBase: atomic flags wasChanged and
isUpdateRunning, the open flag, queue lengths of the start and result
channels, and a count of update-function runs. -/
structure ConfigurationHandlerBase where
  wasChanged : Bool
  isUpdateRunning : Bool
  isOpen : Bool
  startTokens : Nat
  resultQueue : Nat
  startChClosed : Bool
  updatesRun : Nat
deriving DecidableEq, Repr

/-- Update triggers the configuration update (configuration_handler.go):
four guarded rejections, otherwise a token is sent on updateStartCh and
isUpdateRunning is set.  The returned option is the Go error. -/
def ConfigurationHandlerBase.Update (c : ConfigurationHandlerBase) :
    ConfigurationHandlerBase × Option UpdateErrorKind :=
  if ¬c.isOpen then (c, some .closed)
  else if ¬c.wasChanged then (c, some .noChange)
  else if c.isUpdateRunning then (c, some .inFlight)
  else if c.resultQueue > 0 then (c, some .resultPending)
  else ({ c with startTokens := c.startTokens + 1, isUpdateRunning := true },
        none)

/-- Close triggers closing of the ConfigurationHandlerBase: when open it
closes updateStartCh and clears isOpen, otherwise it does nothing. -/
def ConfigurationHandlerBase.Close (c : ConfigurationHandlerBase) :
    ConfigurationHandlerBase :=
  if c.isOpen then { c with startChClosed := true, isOpen := false }
  else c

/-- GetWasChangedChannel returns the wasChanged channel, or a nil channel
(none) when the handler is closed. -/
def ConfigurationHandlerBase.GetWasChangedChannel
    (c : ConfigurationHandlerBase) : Option Unit :=
  if c.isOpen then some () else none

/-- GetUpdateResultChannel returns the update result channel, or a nil
channel (none) when the handler is closed. -/
def ConfigurationHandlerBase.GetUpdateResultChannel
    (c : ConfigurationHandlerBase) : Option Unit :=
  if c.isOpen then some () else none

/-- The worker branch of listenToEvents that receives a start token from
the open updateStartCh: it runs the update function once, sends its result
on updateResultCh, then stores false into wasChanged and isUpdateRunning. -/
def workerRunUpdate (c : ConfigurationHandlerBase) : ConfigurationHandlerBase :=
  { c with startTokens := c.startTokens - 1,
           resultQueue := c.resultQueue + 1,
           updatesRun := c.updatesRun + 1,
           wasChanged := false,
           isUpdateRunning := false }

/-- C4.  Update rejects with a distinct error and leaves the handler state
untouched in each of the four conditions (closed; no change observed; a
previous update in flight; a previous result unread); otherwise it is
accepted and queues exactly one start token, and the worker run triggered
by that token runs the update function exactly once and clears the
was-changed condition on completion. -/
theorem update_policy (c : ConfigurationHandlerBase) :
    (¬c.isOpen → c.Update = (c, some .closed))
    ∧ (c.isOpen → ¬c.wasChanged → c.Update = (c, some .noChange))
    ∧ (c.isOpen → c.wasChanged → c.isUpdateRunning →
        c.Update = (c, some .inFlight))
    ∧ (c.isOpen → c.wasChanged → ¬c.isUpdateRunning → 0 < c.resultQueue →
        c.Update = (c, some .resultPending))
    ∧ (c.isOpen → c.wasChanged → ¬c.isUpdateRunning → c.resultQueue = 0 →
        c.Update = ({ c with startTokens := c.startTokens + 1,
                             isUpdateRunning := true }, none)
        ∧ (workerRunUpdate (c.Update).1).updatesRun = c.updatesRun + 1
        ∧ (workerRunUpdate (c.Update).1).wasChanged = false
        ∧ (workerRunUpdate (c.Update).1).isUpdateRunning = false
        ∧ (workerRunUpdate (c.Update).1).startTokens = c.startTokens
        ∧ (workerRunUpdate (c.Update).1).resultQueue = c.resultQueue + 1) := by
  obtain ⟨wc, ur, op, st, rq, scl, nr⟩ := c
  refine ⟨fun h1 => ?_, fun h1 h2 => ?_, fun h1 h2 h3 => ?_,
    fun h1 h2 h3 h4 => ?_, fun h1 h2 h3 h4 => ?_⟩ <;>
    simp_all [ConfigurationHandlerBase.Update, workerRunUpdate]

/-- Witness for the C4 policy theorem: each rejection and the accepted
path at concrete handler states. -/
theorem update_policy_witness :
    (⟨true, false, false, 0, 0, false, 0⟩ :
        ConfigurationHandlerBase).Update
      = (⟨true, false, false, 0, 0, false, 0⟩, some .closed)
    ∧ (⟨false, false, true, 0, 0, false, 0⟩ :
        ConfigurationHandlerBase).Update
      = (⟨false, false, true, 0, 0, false, 0⟩, some .noChange)
    ∧ (⟨true, true, true, 1, 0, false, 0⟩ :
        ConfigurationHandlerBase).Update
      = (⟨true, true, true, 1, 0, false, 0⟩, some .inFlight)
    ∧ (⟨true, false, true, 0, 1, false, 0⟩ :
        ConfigurationHandlerBase).Update
      = (⟨true, false, true, 0, 1, false, 0⟩, some .resultPending)
    ∧ (⟨true, false, true, 0, 0, false, 0⟩ :
        ConfigurationHandlerBase).Update
      = (⟨true, true, true, 1, 0, false, 0⟩, none) := by
  refine ⟨?_, ?_, ?_, ?_, ?_⟩
  · exact (update_policy ⟨true, false, false, 0, 0, false, 0⟩).1 (by decide)
  · exact (update_policy ⟨false, false, true, 0, 0, false, 0⟩).2.1
      (by decide) (by decide)
  · exact (update_policy ⟨true, true, true, 1, 0, false, 0⟩).2.2.1
      (by decide) (by decide) (by decide)
  · exact (update_policy ⟨true, false, true, 0, 1, false, 0⟩).2.2.2.1
      (by decide) (by decide) (by decide) (by decide)
  · exact ((update_policy ⟨true, false, true, 0, 0, false, 0⟩).2.2.2.2
      (by decide) (by decide) (by decide) (by decide)).1

/-- C10.  After Close, both channel getters return the nil channel (which
never delivers a value) and Update returns the closed error while leaving
the handler state exactly as Close left it: no start token is sent and the
wasChanged and isUpdateRunning flags keep their values. -/
theorem closed_handler_inert (c : ConfigurationHandlerBase) :
    c.Close.GetWasChangedChannel = none
    ∧ c.Close.GetUpdateResultChannel = none
    ∧ c.Close.Update = (c.Close, some .closed)
    ∧ c.Close.startTokens = c.startTokens
    ∧ c.Close.wasChanged = c.wasChanged
    ∧ c.Close.isUpdateRunning = c.isUpdateRunning := by
  obtain ⟨wc, ur, op, st, rq, scl, nr⟩ := c
  cases op <;> simp [ConfigurationHandlerBase.Close,
    ConfigurationHandlerBase.GetWasChangedChannel,
    ConfigurationHandlerBase.GetUpdateResultChannel,
    ConfigurationHandlerBase.Update]

/-! ## FileActivationHandler close (handlers/activation_handler.go) -/

/-- The close-relevant state of a FileActivationHandler: the isOpen flag
and whether the done channel has been closed. -/
structure FileActivationHandler where
  isOpen : Bool
  doneClosed : Bool
deriving DecidableEq, Repr

/-- Close triggers closing of the FileActivationHandler: when open it
closes the done channel and clears isOpen, otherwise it does nothing. -/
def FileActivationHandler.Close (a : FileActivationHandler) :
    FileActivationHandler :=
  if a.isOpen then { a with doneClosed := true, isOpen := false }
  else a

/-! ## EventNotifier (handlers/internal/global/notifier.go)

The notify channel has capacity one; chTokens is its queue length and
chClosed records close(e.ch).  Operations that panic in Go return none:
closing a closed channel, and sending on a closed channel (which panics
even inside a select with a default branch). -/

/-- The state of an EventNotifier: the latched value and the one-slot
notify channel. -/
structure EventNotifier (T : Type) where
  chClosed : Bool
  chTokens : Nat
  val : Option T
deriving Repr

/-- NewEventNotifier returns a ready EventNotifier: empty open channel of
capacity one, no latched value. -/
def NewEventNotifier (T : Type) : EventNotifier T := ⟨false, 0, none⟩

/-- Stop closes the notify channel and then receives from it once.
Closing an already-closed channel panics in Go, modelled as none. -/
def EventNotifier.Stop {T : Type} (e : EventNotifier T) :
    Option (EventNotifier T) :=
  if e.chClosed then none
  else some { e with chClosed := true, chTokens := 0 }

/-- GetValue swaps the latched value with nil and returns the previous
value together with the notifier after the swap. -/
def EventNotifier.GetValue {T : Type} (e : EventNotifier T) :
    Option T × EventNotifier T :=
  (e.val, { e with val := none })

/-- Notify stores the value and makes a non-blocking send on the notify
channel (select with a default branch): when the one-slot channel already
holds a token the send is skipped.  A send on a closed channel panics,
modelled as none. -/
def EventNotifier.Notify {T : Type} (e : EventNotifier T) (v : T) :
    Option (EventNotifier T) :=
  let e1 := { e with val := some v }
  if e1.chClosed then none
  else if e1.chTokens < 1 then some { e1 with chTokens := e1.chTokens + 1 }
  else some e1

/-- C8.  On an open notifier, Notify never blocks or fails and the
consumer observes only the most recent value: after Notify v1 then
Notify v2 with no intervening GetValue, GetValue returns v2, a second
GetValue without an intervening Notify returns no value, and the notify
channel never accumulates more than one token beyond its single slot. -/
theorem notifier_latest_value {T : Type} (e : EventNotifier T) (v1 v2 : T)
    (h : e.chClosed = false) :
    ∃ e1 e2, e.Notify v1 = some e1 ∧ e1.Notify v2 = some e2
      ∧ e2.GetValue.1 = some v2
      ∧ e2.GetValue.2.GetValue.1 = none
      ∧ e2.chTokens = max e.chTokens 1 := by
  obtain ⟨cl, tk, vl⟩ := e
  subst h
  cases tk with
  | zero =>
    exact ⟨⟨false, 1, some v1⟩, ⟨false, 1, some v2⟩, rfl, rfl, rfl, rfl, rfl⟩
  | succ k =>
    refine ⟨⟨false, k + 1, some v1⟩, ⟨false, k + 1, some v2⟩, ?_, ?_, rfl, rfl, ?_⟩
    · simp [EventNotifier.Notify]
    · simp [EventNotifier.Notify]
    · simp [Nat.max_eq_left (Nat.succ_le_succ (Nat.zero_le k))]

/-- Witness for the C8 theorem on a fresh notifier. -/
theorem notifier_latest_value_witness :
    (NewEventNotifier Nat).chClosed = false
    ∧ ∃ e1 e2, (NewEventNotifier Nat).Notify 1 = some e1
        ∧ e1.Notify 2 = some e2
        ∧ e2.GetValue.1 = some 2
        ∧ e2.GetValue.2.GetValue.1 = none
        ∧ e2.chTokens = max (NewEventNotifier Nat).chTokens 1 :=
  ⟨rfl, notifier_latest_value (NewEventNotifier Nat) 1 2 rfl⟩

/-- C7 settled against the code: the second Stop on an EventNotifier
closes an already-closed channel and panics (none), refuting the claim
that a second Stop does not fail, while a second Close on an activation or
configuration handler is indeed a no-op. -/
theorem stop_after_stop_panics :
    ((NewEventNotifier Nat).Stop.bind EventNotifier.Stop) = none
    ∧ (∀ c : ConfigurationHandlerBase, c.Close.Close = c.Close)
    ∧ (∀ a : FileActivationHandler, a.Close.Close = a.Close) := by
  refine ⟨rfl, ?_, ?_⟩
  · intro c
    obtain ⟨wc, ur, op, st, rq, scl, nr⟩ := c
    cases op <;> simp [ConfigurationHandlerBase.Close]
  · intro a
    obtain ⟨op, dc⟩ := a
    cases op <;> simp [FileActivationHandler.Close]

/-! ## The tarred update function
(handlers/configuration_handler_update_functions.go and
handlers/internal/filesystem/diff.go)

Directories are association lists from flattened relative file names to
file data.  The archive is represented by the staging-directory contents
its extraction produces.  Filesystem failures of the individual operations
are injected through an oracle; a none entry means the operation
succeeds. -/

/-- The content and mode of a regular file. -/
structure FileData where
  content : List Nat
  mode : Nat
deriving DecidableEq, Repr

/-- A directory listing: flattened relative names with their file data. -/
abbrev Dir := List (String × FileData)

/-- AreFilesDifferent (diff.go): two readable files are different exactly
when their byte contents differ or their file modes differ. -/
def areFilesDifferent (f1 f2 : FileData) : Bool :=
  decide (f1.content ≠ f2.content) || decide (f1.mode ≠ f2.mode)

/-- oldConfigDirFlag marks presence in the old config directory. -/
def oldConfigDirFlag : Nat := 1

/-- newConfigDirFlag marks presence in the new (staging) directory. -/
def newConfigDirFlag : Nat := 2

/-- One step of setFlag: (*f)[configFile] |= flag on an association list;
an absent key is appended with the flag. -/
def addFlag : List (String × Nat) → String → Nat → List (String × Nat)
  | [], name, flag => [(name, flag)]
  | (m, g) :: rest, name, flag =>
      if m = name then (m, g ||| flag) :: rest
      else (m, g) :: addFlag rest name flag

/-- setFlag sets flag for each file from the directory listing into the
presence map (the loop over configFiles in the source). -/
def setFlag : List (String × Nat) → List String → Nat → List (String × Nat)
  | m, [], _ => m
  | m, n :: rest, flag => setFlag (addFlag m n flag) rest flag

/-- createFilePresenceMap creates a map of file names from both
oldConfigDir and newConfigDir with presence flags; the old directory is
listed first, then the staging directory.  (Go iterates this map in an
unspecified order; the model fixes insertion order.) -/
def createFilePresenceMap (oldD newD : Dir) : List (String × Nat) :=
  setFlag (setFlag [] (oldD.map Prod.fst) oldConfigDirFlag)
    (newD.map Prod.fst) newConfigDirFlag

/-- Failure injection for the filesystem operations used by
updateTarredConfig; a none entry means the operation succeeds. -/
structure FsOracle where
  clearErr : Option Err
  extractErr : Option Err
  listOldErr : Option Err
  listNewErr : Option Err
  moveErr : String → Option Err
  diffErr : String → Option Err
  deleteErr : String → Option Err

/-- The body of the update loop for one presence-map entry: the switch on
the presence flag from updateTarredConfig, returning either the recorded
modification (none when an unchanged OLD|NEW file is skipped) or the first
error.  A file that can not be read makes AreFilesDifferent fail. -/
def entryApply (o : FsOracle) (oldD newD : Dir) :
    String × Nat → Except TarErr (Option (String × Modification))
  | (name, flag) =>
    if flag = newConfigDirFlag then
      match o.moveErr name with
      | some e => .error (.move e)
      | none => .ok (some (name, .Created))
    else if flag = newConfigDirFlag ||| oldConfigDirFlag then
      match o.diffErr name with
      | some e => .error (.diff e)
      | none =>
        match List.lookup name newD, List.lookup name oldD with
        | some nf, some fo =>
          if areFilesDifferent nf fo then
            match o.moveErr name with
            | some e => .error (.move e)
            | none => .ok (some (name, .Modified))
          else .ok none
        | _, _ => .error (.diff "file can not be read")
    else if flag = oldConfigDirFlag then
      match o.deleteErr name with
      | some e => .error (.del e)
      | none => .ok (some (name, .Deleted))
    else .ok none

/-- The result of the tarred update function: the changed-files map (an
association list) and the error of the first failing operation. -/
structure TarUpdateResult where
  changedFiles : List (String × Modification)
  err : Option TarErr
deriving DecidableEq, Repr

/-- The update loop of updateTarredConfig over the presence-map entries:
a successful operation records its modification and continues, the first
failing operation returns the partial changed-files map together with its
error. -/
def processEntries (o : FsOracle) (oldD newD : Dir) :
    List (String × Nat) → List (String × Modification) → TarUpdateResult
  | [], acc => ⟨acc, none⟩
  | x :: rest, acc =>
    match entryApply o oldD newD x with
    | .error e => ⟨acc, some e⟩
    | .ok none => processEntries o oldD newD rest acc
    | .ok (some r) => processEntries o oldD newD rest (acc ++ [r])

/-- updateTarredConfig: clear the staging directory, extract the pinned
archive into it, list both directories into the presence map, then run the
update loop.  Each phase aborts on its first error. -/
def updateTarredConfig (o : FsOracle) (oldD newD : Dir) : TarUpdateResult :=
  match o.clearErr with
  | some e => ⟨[], some (.clearDir e)⟩
  | none =>
    match o.extractErr with
    | some e => ⟨[], some (.extract e)⟩
    | none =>
      match o.listOldErr with
      | some e => ⟨[], some (.listDir e)⟩
      | none =>
        match o.listNewErr with
        | some e => ⟨[], some (.listDir e)⟩
        | none =>
          processEntries o oldD newD (createFilePresenceMap oldD newD) []

/-- entryOk tells whether the operation for one presence-map entry
succeeds. -/
def entryOk (o : FsOracle) (oldD newD : Dir) (x : String × Nat) : Bool :=
  match entryApply o oldD newD x with
  | .ok _ => true
  | .error _ => false

/-- entryRec is the modification recorded for one successfully processed
presence-map entry. -/
def entryRec (o : FsOracle) (oldD newD : Dir) (x : String × Nat) :
    Option (String × Modification) :=
  match entryApply o oldD newD x with
  | .ok r => r
  | .error _ => none

/-- entryFail is the error produced by one failing presence-map entry. -/
def entryFail (o : FsOracle) (oldD newD : Dir) (x : String × Nat) :
    Option TarErr :=
  match entryApply o oldD newD x with
  | .ok _ => none
  | .error e => some e

/-- The oracle on which every filesystem operation succeeds. -/
def noFailures : FsOracle :=
  ⟨none, none, none, none, fun _ => none, fun _ => none, fun _ => none⟩

/-- The per-file outcome of an update, transcribed from the specification:
present only in staging is Created, present in both is Modified exactly
when content or mode differ and untouched otherwise, present only in the
old directory is Deleted. -/
def specChangeOf (oldD newD : Dir) (n : String) : Option Modification :=
  match List.lookup n newD, List.lookup n oldD with
  | some nf, some fo =>
      if areFilesDifferent nf fo then some .Modified else none
  | some _, none => some .Created
  | none, some _ => some .Deleted
  | none, none => none

example :
    updateTarredConfig noFailures
      [("a", ⟨[1], 0⟩), ("b", ⟨[2], 0⟩), ("c", ⟨[3], 0⟩)]
      [("b", ⟨[2], 0⟩), ("c", ⟨[9], 0⟩), ("d", ⟨[4], 0⟩)] =
    ⟨[("a", .Deleted), ("c", .Modified), ("d", .Created)], none⟩ := by
  decide

example :
    updateTarredConfig
      { noFailures with moveErr := fun n => if n = "d" then some "mv" else none }
      [("a", ⟨[1], 0⟩)] [("a", ⟨[1], 0⟩), ("d", ⟨[4], 0⟩)] =
    ⟨[], some (.move "mv")⟩ := by
  decide

/-! ### Association-list helper lemmas for the presence map -/

theorem lor_lor_self (g f : Nat) : g ||| f ||| f = g ||| f := by
  rw [Nat.lor_assoc]; simp

/-- Looking a key up after addFlag: the looked-up entry gains the flag,
a missing key is appended with the flag, other keys are untouched. -/
theorem lookup_addFlag (m : List (String × Nat)) (n : String) (f : Nat)
    (k : String) :
    List.lookup k (addFlag m n f)
      = if k = n then
          (match List.lookup k m with
            | some g => some (g ||| f)
            | none => some f)
        else List.lookup k m := by
  induction m with
  | nil =>
    by_cases h : k = n
    · subst h; simp [addFlag, List.lookup]
    · simp [addFlag, List.lookup, h, beq_eq_false_iff_ne.2 h]
  | cons p rest ih =>
    obtain ⟨a, g⟩ := p
    by_cases h1 : a = n
    · subst h1
      by_cases h2 : k = a
      · subst h2; simp [addFlag, List.lookup]
      · simp [addFlag, List.lookup, h2, beq_eq_false_iff_ne.2 h2]
    · by_cases h2 : k = a
      · subst h2
        simp [addFlag, List.lookup, h1, Ne.symm h1]
      · simp [addFlag, List.lookup, h1, h2, beq_eq_false_iff_ne.2 h2, ih]

/-- Looking a key up after setFlag: every listed key gains the flag (with
repeated listings coalescing), other keys are untouched. -/
theorem lookup_setFlag (names : List String) (m : List (String × Nat))
    (f : Nat) (k : String) :
    List.lookup k (setFlag m names f)
      = if k ∈ names then
          (match List.lookup k m with
            | some g => some (g ||| f)
            | none => some f)
        else List.lookup k m := by
  induction names generalizing m with
  | nil => simp [setFlag]
  | cons n rest ih =>
    show List.lookup k (setFlag (addFlag m n f) rest f) = _
    rw [ih, lookup_addFlag]
    by_cases hkr : k ∈ rest
    · simp only [if_pos hkr, List.mem_cons, hkr, or_true, if_pos]
      by_cases hkn : k = n
      · subst hkn
        cases h : List.lookup k m <;> simp [lor_lor_self]
      · simp [hkn]
    · by_cases hkn : k = n
      · subst hkn
        simp [hkr]
      · simp [hkr, hkn]

/-- The keys after addFlag: unchanged when the key is present, appended
otherwise. -/
theorem keys_addFlag (m : List (String × Nat)) (n : String) (f : Nat) :
    (addFlag m n f).map Prod.fst
      = if n ∈ m.map Prod.fst then m.map Prod.fst
        else m.map Prod.fst ++ [n] := by
  induction m with
  | nil => simp [addFlag]
  | cons p rest ih =>
    obtain ⟨a, g⟩ := p
    by_cases h1 : a = n
    · subst h1
      simp [addFlag]
    · by_cases h2 : n ∈ rest.map Prod.fst <;>
        simp [addFlag, h1, Ne.symm h1, ih, h2, List.mem_cons]

/-- addFlag keeps the presence-map keys duplicate-free. -/
theorem keysNodup_addFlag (m : List (String × Nat)) (n : String) (f : Nat)
    (h : (m.map Prod.fst).Nodup) : ((addFlag m n f).map Prod.fst).Nodup := by
  rw [keys_addFlag]
  split
  · exact h
  · next hn =>
      refine h.append (List.nodup_singleton n) ?_
      intro x hx hxn
      simp only [List.mem_singleton] at hxn
      subst hxn
      exact hn hx

/-- setFlag keeps the presence-map keys duplicate-free. -/
theorem keysNodup_setFlag (names : List String) (m : List (String × Nat))
    (f : Nat) (h : (m.map Prod.fst).Nodup) :
    ((setFlag m names f).map Prod.fst).Nodup := by
  induction names generalizing m with
  | nil => exact h
  | cons n rest ih => exact ih (addFlag m n f) (keysNodup_addFlag m n f h)

/-- The presence-map keys are duplicate-free. -/
theorem keysNodup_createFilePresenceMap (oldD newD : Dir) :
    ((createFilePresenceMap oldD newD).map Prod.fst).Nodup :=
  keysNodup_setFlag _ _ _ (keysNodup_setFlag _ _ _ (by simp))

/-- A lookup succeeds exactly on the keys of an association list. -/
theorem lookup_isSome_iff_mem_keys {β : Type} (l : List (String × β))
    (k : String) :
    (List.lookup k l).isSome ↔ k ∈ l.map Prod.fst := by
  induction l with
  | nil => simp
  | cons p rest ih =>
    obtain ⟨a, b⟩ := p
    by_cases h : k = a
    · subst h; simp [List.lookup]
    · simp [List.lookup, h, beq_eq_false_iff_ne.2 h, ih]

/-- A key that is absent from an association list looks up to none. -/
theorem lookup_eq_none_of_not_mem_keys {β : Type} (l : List (String × β))
    (k : String) (h : k ∉ l.map Prod.fst) : List.lookup k l = none := by
  cases hl : List.lookup k l with
  | none => rfl
  | some b =>
    exact absurd ((lookup_isSome_iff_mem_keys l k).1 (by simp [hl])) h

/-- With duplicate-free keys, membership of a pair determines the lookup. -/
theorem lookup_eq_some_of_mem {β : Type} (l : List (String × β))
    (k : String) (b : β) (hnd : (l.map Prod.fst).Nodup)
    (h : (k, b) ∈ l) : List.lookup k l = some b := by
  induction l with
  | nil => simp at h
  | cons p rest ih =>
    obtain ⟨a, c⟩ := p
    simp only [List.map_cons, List.nodup_cons] at hnd
    rcases List.mem_cons.1 h with h1 | h1
    · cases h1
      simp [List.lookup]
    · have hk : k ∈ rest.map Prod.fst := List.mem_map.2 ⟨(k, b), h1, rfl⟩
      have hka : k ≠ a := fun he => hnd.1 (he ▸ hk)
      rw [show List.lookup k ((a, c) :: rest) = List.lookup k rest by
        simp [List.lookup, beq_eq_false_iff_ne.2 hka]]
      exact ih hnd.2 h1

/-- The presence flag of every name, as looked up in the presence map:
1 for old-only, 2 for staging-only, 3 for both, absent otherwise. -/
theorem lookup_createFilePresenceMap (oldD newD : Dir) (k : String) :
    List.lookup k (createFilePresenceMap oldD newD)
      = if k ∈ newD.map Prod.fst then
          (if k ∈ oldD.map Prod.fst then some 3 else some 2)
        else (if k ∈ oldD.map Prod.fst then some 1 else none) := by
  show List.lookup k
      (setFlag (setFlag [] (oldD.map Prod.fst) oldConfigDirFlag)
        (newD.map Prod.fst) newConfigDirFlag) = _
  rw [lookup_setFlag, lookup_setFlag]
  by_cases ho : k ∈ oldD.map Prod.fst <;>
    by_cases hn : k ∈ newD.map Prod.fst <;>
    simp [ho, hn, List.lookup, oldConfigDirFlag, newConfigDirFlag]

/-! ### Characterization of the update loop -/

/-- The update loop appends the records of the longest error-free prefix
of the entries and reports the error of the first failing entry, if any:
the first failing operation aborts the run and the result carries that
error together with the partial changed-files map accumulated so far. -/
theorem processEntries_eq (o : FsOracle) (oldD newD : Dir)
    (entries : List (String × Nat)) (acc : List (String × Modification)) :
    processEntries o oldD newD entries acc
      = ⟨acc ++ (entries.takeWhile (entryOk o oldD newD)).filterMap
            (entryRec o oldD newD),
         (entries.dropWhile (entryOk o oldD newD)).head?.bind
            (entryFail o oldD newD)⟩ := by
  induction entries generalizing acc with
  | nil => simp [processEntries]
  | cons x rest ih =>
    cases h : entryApply o oldD newD x with
    | error e =>
      simp [processEntries, h, entryOk, entryRec, entryFail,
        List.takeWhile_cons, List.dropWhile_cons]
    | ok r =>
      cases r with
      | none =>
        simp [processEntries, h, entryOk, entryRec, entryFail,
          List.takeWhile_cons, List.dropWhile_cons, ih]
      | some rr =>
        simp [processEntries, h, entryOk, entryRec, entryFail,
          List.takeWhile_cons, List.dropWhile_cons, ih]

/-- When every entry succeeds, takeWhile keeps all entries and dropWhile
leaves none. -/
theorem takeWhile_dropWhile_of_all {α : Type} (p : α → Bool) (l : List α)
    (h : ∀ x ∈ l, p x = true) :
    l.takeWhile p = l ∧ l.dropWhile p = [] := by
  induction l with
  | nil => simp
  | cons x rest ih =>
    have hx := h x (List.mem_cons_self x rest)
    have hr := ih fun y hy => h y (List.mem_cons_of_mem x hy)
    simp [List.takeWhile_cons, List.dropWhile_cons, hx, hr.1, hr.2]

/-- entryApply only records modifications under the name of the entry it
processes. -/
theorem entryApply_key (o : FsOracle) (oldD newD : Dir) (x : String × Nat)
    (r : String × Modification)
    (h : entryApply o oldD newD x = .ok (some r)) : r.1 = x.1 := by
  obtain ⟨name, flag⟩ := x
  simp only [entryApply] at h
  split at h
  · cases hm : o.moveErr name <;> simp [hm] at h <;> simp [← h]
  · split at h
    · split at h
      · simp at h
      · split at h
        · split at h
          · split at h
            · simp at h
            · simp at h
              simp [← h]
          · simp at h
        · simp at h
    · split at h
      · cases hd : o.deleteErr name <;> simp [hd] at h <;> simp [← h]
      · simp at h

/-- Looking up a name in the record list produced by a keyed filterMap
over entries with duplicate-free keys. -/
theorem lookup_filterMap_entryRec (o : FsOracle) (oldD newD : Dir)
    (l : List (String × Nat)) (hnd : (l.map Prod.fst).Nodup) (k : String) :
    List.lookup k (l.filterMap (entryRec o oldD newD))
      = match List.lookup k l with
        | some f => (entryRec o oldD newD (k, f)).map Prod.snd
        | none => none := by
  induction l with
  | nil => simp
  | cons x rest ih =>
    obtain ⟨a, f⟩ := x
    simp only [List.map_cons, List.nodup_cons] at hnd
    by_cases hk : k = a
    · subst hk
      cases hg : entryRec o oldD newD (k, f) with
      | some r =>
        have hr1 : r.1 = k := by
          have : entryApply o oldD newD (k, f) = .ok (some r) := by
            simp only [entryRec] at hg
            split at hg
            · next heq =>
                cases hg
                simpa using heq
            · simp at hg
          exact entryApply_key o oldD newD (k, f) r this
        obtain ⟨rk, rm⟩ := r
        simp only at hr1
        subst hr1
        simp [List.filterMap_cons, hg, List.lookup]
      | none =>
        have hnone : List.lookup k (rest.filterMap (entryRec o oldD newD))
            = none := by
          apply lookup_eq_none_of_not_mem_keys
          intro hmem
          obtain ⟨⟨rk, rm⟩, hin, heq⟩ := List.mem_map.1 hmem
          obtain ⟨y, hy, hyr⟩ := List.mem_filterMap.1 hin
          have : rk = y.1 := by
            have := entryApply_key o oldD newD y (rk, rm) (by
              simp only [entryRec] at hyr
              split at hyr
              · next heq2 =>
                  cases hyr
                  simpa using heq2
              · simp at hyr)
            simpa using this
          subst heq
          apply hnd.1
          rw [this]
          exact List.mem_map.2 ⟨y, hy, rfl⟩
        simp [List.filterMap_cons, hg, List.lookup, hnone]
    · have hb : (k == a) = false := beq_eq_false_iff_ne.2 hk
      cases hg : entryRec o oldD newD (a, f) with
      | some r =>
        have hr1 : r.1 = a := by
          apply entryApply_key o oldD newD (a, f) r
          simp only [entryRec] at hg
          split at hg
          · next heq =>
              cases hg
              simpa using heq
          · simp at hg
        obtain ⟨rk, rm⟩ := r
        simp only at hr1
        subst hr1
        simp [List.filterMap_cons, hg, List.lookup, hb, ih hnd.2]
      | none =>
        simp [List.filterMap_cons, hg, List.lookup, hb, ih hnd.2]

/-- With no injected failures, every presence-map entry is processed
without error. -/
theorem entryOk_all_noFailures (oldD newD : Dir) :
    ∀ x ∈ createFilePresenceMap oldD newD,
      entryOk noFailures oldD newD x = true := by
  rintro ⟨k, f⟩ hmem
  have hl : List.lookup k (createFilePresenceMap oldD newD) = some f :=
    lookup_eq_some_of_mem _ k f (keysNodup_createFilePresenceMap oldD newD) hmem
  rw [lookup_createFilePresenceMap] at hl
  by_cases hn : k ∈ newD.map Prod.fst <;> by_cases ho : k ∈ oldD.map Prod.fst <;>
    simp only [hn, ho, if_true, if_false, Option.some.injEq,
      reduceCtorEq] at hl
  · subst hl
    obtain ⟨nf, hnf⟩ := Option.isSome_iff_exists.1
      ((lookup_isSome_iff_mem_keys newD k).2 hn)
    obtain ⟨fo, hfo⟩ := Option.isSome_iff_exists.1
      ((lookup_isSome_iff_mem_keys oldD k).2 ho)
    simp only [entryOk, entryApply, noFailures, newConfigDirFlag,
      oldConfigDirFlag, hnf, hfo]
    norm_num
    cases areFilesDifferent nf fo <;> simp
  · subst hl
    simp [entryOk, entryApply, noFailures, newConfigDirFlag, oldConfigDirFlag]
  · subst hl
    simp [entryOk, entryApply, noFailures, newConfigDirFlag, oldConfigDirFlag]

/-- With no injected failures the tarred update returns no error and its
changed-files map realizes exactly the per-file outcome of the
specification. -/
theorem updateTarred_noFailures (oldD newD : Dir) (n : String) :
    (updateTarredConfig noFailures oldD newD).err = none
    ∧ List.lookup n (updateTarredConfig noFailures oldD newD).changedFiles
        = specChangeOf oldD newD n := by
  have hrun : updateTarredConfig noFailures oldD newD
      = processEntries noFailures oldD newD
          (createFilePresenceMap oldD newD) [] := rfl
  have htd := takeWhile_dropWhile_of_all (entryOk noFailures oldD newD)
    (createFilePresenceMap oldD newD) (entryOk_all_noFailures oldD newD)
  rw [hrun, processEntries_eq, htd.1, htd.2]
  refine ⟨rfl, ?_⟩
  simp only [List.nil_append]
  rw [lookup_filterMap_entryRec noFailures oldD newD _
    (keysNodup_createFilePresenceMap oldD newD) n]
  rw [lookup_createFilePresenceMap]
  by_cases hn : n ∈ newD.map Prod.fst <;> by_cases ho : n ∈ oldD.map Prod.fst
  · obtain ⟨nf, hnf⟩ := Option.isSome_iff_exists.1
      ((lookup_isSome_iff_mem_keys newD n).2 hn)
    obtain ⟨fo, hfo⟩ := Option.isSome_iff_exists.1
      ((lookup_isSome_iff_mem_keys oldD n).2 ho)
    simp only [hn, ho, if_true]
    simp only [entryRec, entryApply, noFailures, newConfigDirFlag,
      oldConfigDirFlag, specChangeOf, hnf, hfo]
    norm_num
    cases areFilesDifferent nf fo <;> simp
  · have hon : List.lookup n oldD = none :=
      lookup_eq_none_of_not_mem_keys oldD n ho
    obtain ⟨nf, hnf⟩ := Option.isSome_iff_exists.1
      ((lookup_isSome_iff_mem_keys newD n).2 hn)
    simp only [hn, ho, if_true, if_false]
    simp [entryRec, entryApply, noFailures, newConfigDirFlag,
      oldConfigDirFlag, specChangeOf, hnf, hon]
  · have hnn : List.lookup n newD = none :=
      lookup_eq_none_of_not_mem_keys newD n hn
    obtain ⟨fo, hfo⟩ := Option.isSome_iff_exists.1
      ((lookup_isSome_iff_mem_keys oldD n).2 ho)
    simp only [hn, ho, if_true, if_false]
    simp [entryRec, entryApply, noFailures, newConfigDirFlag,
      oldConfigDirFlag, specChangeOf, hfo, hnn]
  · have hon : List.lookup n oldD = none :=
      lookup_eq_none_of_not_mem_keys oldD n ho
    have hnn : List.lookup n newD = none :=
      lookup_eq_none_of_not_mem_keys newD n hn
    simp [hn, ho, specChangeOf, hon, hnn]

/-- C5.  The tarred update performs its phases in order, with the first
failure aborting: a clear-staging failure, then an extract failure, then a
listing failure of either directory each abort with an empty changed-files
map; the update loop processes every mapped name, recording Created for
staging-only names, Modified for names present in both directories exactly
when content or mode differ, and Deleted for old-only names; the first
failing move, diff or delete aborts with that error and the partial
changed-files map accumulated so far; and with no failures the result has
no error and its changed-files map matches the per-file outcome of the
specification at every name. -/
theorem updateTarredConfig_spec (o : FsOracle) (oldD newD : Dir)
    (n : String) (er : Err) (entries : List (String × Nat))
    (acc : List (String × Modification)) :
    (updateTarredConfig { o with clearErr := some er } oldD newD
        = ⟨[], some (.clearDir er)⟩)
    ∧ (updateTarredConfig
          { o with clearErr := none, extractErr := some er } oldD newD
        = ⟨[], some (.extract er)⟩)
    ∧ (updateTarredConfig
          { o with clearErr := none, extractErr := none,
                   listOldErr := some er } oldD newD
        = ⟨[], some (.listDir er)⟩)
    ∧ (updateTarredConfig
          { o with clearErr := none, extractErr := none,
                   listOldErr := none, listNewErr := some er } oldD newD
        = ⟨[], some (.listDir er)⟩)
    ∧ (processEntries o oldD newD entries acc
        = ⟨acc ++ (entries.takeWhile (entryOk o oldD newD)).filterMap
              (entryRec o oldD newD),
           (entries.dropWhile (entryOk o oldD newD)).head?.bind
              (entryFail o oldD newD)⟩)
    ∧ ((updateTarredConfig noFailures oldD newD).err = none
       ∧ List.lookup n (updateTarredConfig noFailures oldD newD).changedFiles
          = specChangeOf oldD newD n) :=
  ⟨rfl, rfl, rfl, rfl, processEntries_eq o oldD newD entries acc,
   updateTarred_noFailures oldD newD n⟩
